import Mathlib

/-!
Shallow embedding of the client-side message-list logic of
`src/src/Page/Chat.tsx` (the full version with post/update/delete
subscriptions and the edit flow).

The embedded pieces are: the `Message` record, the three subscription
`next` handlers (`messagePosted`, `messageUpdated`, `messageDeleted`),
the `fetchMessages` state replacement, and the guard logic of
`sendMessage` / `saveEdit` (the `text.trim()` emptiness check, JS
`String.prototype.trim` semantics). Network traffic is modelled as the
list of requests a handler issues, and a server response is an
`Option` payload (`none` = the response carried no usable data).
-/

namespace Chat

/-- The `Message` record of `Chat.tsx`:
`type Message = { id: string; user: string; text: string; createdAt: string }`. -/
structure Message where
  id : String
  user : String
  text : String
  createdAt : String
deriving DecidableEq

/-- Payload of the `messageDeleted` subscription: `{ id success }`. -/
structure DeleteEvent where
  id : String
  success : Bool
deriving DecidableEq

/-- `next` handler of the `messagePosted` subscription (Chat.tsx lines 180-186):
`const m = data?.data?.messagePosted; if (m) setMessages((prev) => [...prev, m])`.
`data = none` models a payload without a `messagePosted` field. -/
def messagePostedNext (data : Option Message) (prev : List Message) : List Message :=
  match data with
  | some m => prev ++ [m]
  | none => prev

/-- `next` handler of the `messageUpdated` subscription (Chat.tsx lines 195-203):
`if (m) setMessages((prev) => prev.map(msg => msg.id === m.id ? m : msg))`. -/
def messageUpdatedNext (data : Option Message) (prev : List Message) : List Message :=
  match data with
  | some m => prev.map (fun msg => if msg.id = m.id then m else msg)
  | none => prev

/-- `next` handler of the `messageDeleted` subscription (Chat.tsx lines 212-219):
`if (deleteData && deleteData.success)
   setMessages((prev) => prev.filter(msg => msg.id !== deleteData.id))`. -/
def messageDeletedNext (data : Option DeleteEvent) (prev : List Message) : List Message :=
  match data with
  | some d => if d.success then prev.filter (fun msg => msg.id != d.id) else prev
  | none => prev

/-- The state update of `fetchMessages` (Chat.tsx lines 162-171):
`if (json?.data?.messages) setMessages(json.data.messages)`.
`resp = some ms` models a response whose `data.messages` is present;
`resp = none` models any response without that payload (a failed request). -/
def fetchMessagesApply (prev : List Message) (resp : Option (List Message)) : List Message :=
  match resp with
  | some ms => ms
  | none => prev

/-- Characters removed by JS `String.prototype.trim` (ECMAScript
WhiteSpace and LineTerminator code points): TAB, LF, VT, FF, CR, SPACE,
NBSP, ZWNBSP, LS, PS, and every Space_Separator (Zs) code point
(U+1680, U+2000-U+200A, U+202F, U+205F, U+3000). -/
def isJsWhitespace (c : Char) : Bool :=
  c == ' ' || c == '\t' || c == '\n' || c == '\r' ||
  c.toNat == 0xB || c.toNat == 0xC || c.toNat == 0xA0 ||
  c.toNat == 0x1680 || (0x2000 ≤ c.toNat && c.toNat ≤ 0x200A) ||
  c.toNat == 0x2028 || c.toNat == 0x2029 || c.toNat == 0x202F ||
  c.toNat == 0x205F || c.toNat == 0x3000 || c.toNat == 0xFEFF

/-- JS `String.prototype.trim`: strip leading and trailing whitespace. -/
def jsTrim (s : String) : String :=
  String.mk (((s.data.dropWhile isJsWhitespace).reverse.dropWhile isJsWhitespace).reverse)

/-- The component state touched by `sendMessage` / `saveEdit` / `fetchMessages`:
`messages`, `user`, `text`, `editingId`, `editingText` (Chat.tsx lines 146-150). -/
structure ChatState where
  messages : List Message
  user : String
  text : String
  editingId : Option String
  editingText : String
deriving DecidableEq

/-- A network request issued by one of the handlers (the GraphQL
operation and its variables). -/
inductive NetRequest where
  | queryMessages : NetRequest
  | postMessage (user text : String) : NetRequest
  | updateMessage (id text : String) : NetRequest
  | deleteMessage (id : String) : NetRequest
deriving DecidableEq

/-- `fetchMessages` as a state transformer: it sends the `messages`
query and applies the response to the collection (Chat.tsx lines 162-171). -/
def fetchMessagesRun (s : ChatState) (resp : Option (List Message)) :
    ChatState × List NetRequest :=
  ({ s with messages := fetchMessagesApply s.messages resp }, [NetRequest.queryMessages])

/-- `sendMessage` (Chat.tsx lines 238-251): `if (!text.trim()) return;`
then the `postMessage` mutation, `setText("")`, and `fetchMessages()`. -/
def sendMessage (s : ChatState) (resp : Option (List Message)) :
    ChatState × List NetRequest :=
  if jsTrim s.text = "" then (s, [])
  else
    let s1 := { s with text := "" }
    let r := fetchMessagesRun s1 resp
    (r.1, NetRequest.postMessage s.user s.text :: r.2)

/-- `saveEdit` (Chat.tsx lines 253-267): `if (!editingText.trim()) return;`
then the `updateMessage` mutation, `setEditingId(null)`,
`setEditingText("")`, and `fetchMessages()`. -/
def saveEdit (id : String) (s : ChatState) (resp : Option (List Message)) :
    ChatState × List NetRequest :=
  if jsTrim s.editingText = "" then (s, [])
  else
    let s1 := { s with editingId := none, editingText := "" }
    let r := fetchMessagesRun s1 resp
    (r.1, NetRequest.updateMessage id s.editingText :: r.2)

/-! ### Helper lemmas -/

/-- Filtering out an id that occurs nowhere in the collection changes nothing. -/
theorem filter_ne_id_eq_self (i : String) :
    ∀ l : List Message, i ∉ l.map Message.id →
      l.filter (fun msg => msg.id != i) = l := by
  intro l
  induction l with
  | nil => intro _; rfl
  | cons a t ih =>
    intro h
    have h1 : i ≠ a.id ∧ i ∉ t.map Message.id := by simpa [not_or] using h
    have hb : (a.id != i) = true := by
      simpa [bne_iff_ne] using fun hc => h1.1 hc.symm
    simp [List.filter_cons, hb, ih h1.2]

/-- When the ids of the collection are pairwise distinct and `i` occurs,
filtering `i` out removes exactly one element. -/
theorem filter_ne_id_length (i : String) :
    ∀ l : List Message, (l.map Message.id).Nodup → i ∈ l.map Message.id →
      (l.filter (fun msg => msg.id != i)).length + 1 = l.length := by
  intro l
  induction l with
  | nil => intro _ hm; simp at hm
  | cons a t ih =>
    intro hn hm
    rw [List.map_cons, List.nodup_cons] at hn
    by_cases hai : a.id = i
    · have ht : i ∉ t.map Message.id := hai ▸ hn.1
      simp [List.filter_cons, hai, filter_ne_id_eq_self i t ht]
    · have hm' : i ∈ t.map Message.id := by
        rw [List.map_cons] at hm
        rcases List.mem_cons.mp hm with h | h
        · exact absurd h.symm hai
        · exact h
      have hb : (a.id != i) = true := by simpa [bne_iff_ne] using hai
      simp only [List.filter_cons, hb, if_true, List.length_cons]
      rw [← ih hn.2 hm']

/-- `dropWhile` consumes the whole list when every element satisfies the test. -/
theorem dropWhile_eq_nil_of_all {p : Char → Bool} :
    ∀ l : List Char, (∀ c ∈ l, p c = true) → l.dropWhile p = [] := by
  intro l
  induction l with
  | nil => intro _; rfl
  | cons a t ih =>
    intro h
    rw [List.dropWhile_cons]
    simp [h a (by simp), ih (fun c hc => h c (by simp [hc]))]

/-- A string made only of JS whitespace trims to the empty string. -/
theorem jsTrim_eq_empty (s : String) (h : ∀ c ∈ s.data, isJsWhitespace c = true) :
    jsTrim s = "" := by
  unfold jsTrim
  rw [dropWhile_eq_nil_of_all s.data h]
  rfl

/-! ### Claim theorems -/

/-- C3: for every collection and every message `m`, the `messagePosted`
handler (`onCreated(m)`) is equivalent to appending `m` at the end of the
collection, and the collection length increases by exactly one. -/
theorem messagePosted_appends (prev : List Message) (m : Message) :
    messagePostedNext (some m) prev = prev ++ [m] ∧
    (messagePostedNext (some m) prev).length = prev.length + 1 := by
  refine ⟨rfl, ?_⟩
  simp [messagePostedNext]

/-- C4: after `fetchAll()` resolves successfully with a server-reported
message list, the local collection exactly equals that list, in
server-given order, regardless of the prior collection and prior state. -/
theorem fetchAll_replaces_collection (prev ms : List Message) :
    fetchMessagesApply prev (some ms) = ms ∧
    ∀ s : ChatState, (fetchMessagesRun s (some ms)).1.messages = ms := by
  exact ⟨rfl, fun _ => rfl⟩

/-- C5: a failed `fetchAll()` request (a response with no `messages`
payload) leaves the prior local collection, and the whole state, untouched. -/
theorem fetchAll_failed_noop (prev : List Message) :
    fetchMessagesApply prev none = prev ∧
    ∀ s : ChatState, (fetchMessagesRun s none).1 = s := by
  exact ⟨rfl, fun _ => rfl⟩

/-- C1: for every collection and every message `m` whose id is present in
the collection, the `messageUpdated` handler (`onUpdated(m)`) replaces only
the entries whose id matches `m`'s (every other entry is unchanged, in
place), and the collection length is unchanged. -/
theorem messageUpdated_replaces_only_matching (l : List Message) (m : Message)
    (_hmem : m.id ∈ l.map Message.id) :
    (messageUpdatedNext (some m) l).length = l.length ∧
    ∀ i : Nat, ∀ msg : Message, l[i]? = some msg →
      ((msg.id = m.id → (messageUpdatedNext (some m) l)[i]? = some m) ∧
       (msg.id ≠ m.id → (messageUpdatedNext (some m) l)[i]? = some msg)) := by
  constructor
  · simp [messageUpdatedNext]
  · intro i msg hmsg
    constructor
    · intro hid
      show (l.map _)[i]? = some m
      rw [List.getElem?_map, hmsg]
      simp [hid]
    · intro hid
      show (l.map _)[i]? = some msg
      rw [List.getElem?_map, hmsg]
      simp [hid]

/-- Witness for C1 at a concrete two-element collection: the matching
entry (index 0) becomes the event message, the other (index 1) is kept. -/
theorem messageUpdated_replaces_only_matching_witness :
    (messageUpdatedNext (some ⟨"1", "A", "hello", "t1"⟩)
        [⟨"1", "A", "hi", "t1"⟩, ⟨"2", "B", "yo", "t2"⟩]).length = 2 ∧
    (messageUpdatedNext (some ⟨"1", "A", "hello", "t1"⟩)
        [⟨"1", "A", "hi", "t1"⟩, ⟨"2", "B", "yo", "t2"⟩])[0]? =
      some ⟨"1", "A", "hello", "t1"⟩ ∧
    (messageUpdatedNext (some ⟨"1", "A", "hello", "t1"⟩)
        [⟨"1", "A", "hi", "t1"⟩, ⟨"2", "B", "yo", "t2"⟩])[1]? =
      some ⟨"2", "B", "yo", "t2"⟩ := by
  have h := messageUpdated_replaces_only_matching
      [⟨"1", "A", "hi", "t1"⟩, ⟨"2", "B", "yo", "t2"⟩]
      ⟨"1", "A", "hello", "t1"⟩ (by decide)
  exact ⟨h.1, (h.2 0 ⟨"1", "A", "hi", "t1"⟩ rfl).1 rfl,
    (h.2 1 ⟨"2", "B", "yo", "t2"⟩ rfl).2 (by decide)⟩

/-- C7: for every collection and every message `m` whose id is absent from
the collection, the `messageUpdated` handler leaves the collection unchanged. -/
theorem messageUpdated_absent_id_noop (l : List Message) (m : Message)
    (h : m.id ∉ l.map Message.id) :
    messageUpdatedNext (some m) l = l := by
  induction l with
  | nil => rfl
  | cons a t ih =>
    have h1 : m.id ≠ a.id ∧ m.id ∉ t.map Message.id := by simpa [not_or] using h
    have h2 : messageUpdatedNext (some m) t = t := ih h1.2
    show (a :: t).map (fun msg => if msg.id = m.id then m else msg) = a :: t
    rw [List.map_cons, if_neg (fun hc => h1.1 hc.symm)]
    rw [show t.map (fun msg => if msg.id = m.id then m else msg) = t from h2]

/-- Witness for C7: an update event for id "2" on a collection holding only
id "1" changes nothing. -/
theorem messageUpdated_absent_id_noop_witness :
    messageUpdatedNext (some ⟨"2", "B", "yo", "t2"⟩) [⟨"1", "A", "hi", "t1"⟩] =
      [⟨"1", "A", "hi", "t1"⟩] :=
  messageUpdated_absent_id_noop [⟨"1", "A", "hi", "t1"⟩] ⟨"2", "B", "yo", "t2"⟩
    (by decide)

/-- C2 as stated is false: on a collection holding two entries with the
same id, a successful delete event removes both, not exactly one. -/
theorem messageDeleted_exactly_one_counterexample :
    ¬ (∀ (l : List Message) (i : String), i ∈ l.map Message.id →
        (messageDeletedNext (some ⟨i, true⟩) l).length = l.length - 1) := by
  intro h
  have h2 := h [⟨"1", "A", "hi", "t1"⟩, ⟨"1", "B", "yo", "t2"⟩] "1" (by decide)
  revert h2
  decide

/-- C2 amended: `onDeleted(id, success=true)` removes every entry whose id
matches; when the collection's ids are pairwise distinct and the id is
present, that is exactly one entry. `success=false` (or a missing payload)
leaves the collection unchanged. -/
theorem messageDeleted_removes_matching (l : List Message) (i : String) :
    messageDeletedNext (some ⟨i, false⟩) l = l ∧
    messageDeletedNext none l = l ∧
    (∀ msg ∈ messageDeletedNext (some ⟨i, true⟩) l, msg.id ≠ i) ∧
    ((l.map Message.id).Nodup → i ∈ l.map Message.id →
      (messageDeletedNext (some ⟨i, true⟩) l).length + 1 = l.length) := by
  refine ⟨rfl, rfl, ?_, ?_⟩
  · intro msg hm
    have hmem : msg ∈ l.filter (fun msg => msg.id != i) := hm
    have := (List.mem_filter.mp hmem).2
    simpa [bne_iff_ne] using this
  · intro hn hmem
    show (l.filter (fun msg => msg.id != i)).length + 1 = l.length
    exact filter_ne_id_length i l hn hmem

/-- Witness for C2 amended at a concrete distinct-id collection: a
failing delete changes nothing and a successful delete removes one entry. -/
theorem messageDeleted_removes_matching_witness :
    messageDeletedNext (some ⟨"1", false⟩)
        [⟨"1", "A", "hi", "t1"⟩, ⟨"2", "B", "yo", "t2"⟩] =
      [⟨"1", "A", "hi", "t1"⟩, ⟨"2", "B", "yo", "t2"⟩] ∧
    (messageDeletedNext (some ⟨"1", true⟩)
        [⟨"1", "A", "hi", "t1"⟩, ⟨"2", "B", "yo", "t2"⟩]).length + 1 = 2 := by
  have h := messageDeleted_removes_matching
      [⟨"1", "A", "hi", "t1"⟩, ⟨"2", "B", "yo", "t2"⟩] "1"
  exact ⟨h.1, h.2.2.2 (by decide) (by decide)⟩

/-- C8: the `messageDeleted` handler with `success=true` is idempotent, and
a successful delete event for an id not present in the collection (for
example one already removed by a prior refetch) is a no-op. -/
theorem messageDeleted_idempotent (l : List Message) (i : String) :
    messageDeletedNext (some ⟨i, true⟩) (messageDeletedNext (some ⟨i, true⟩) l) =
      messageDeletedNext (some ⟨i, true⟩) l ∧
    (i ∉ l.map Message.id → messageDeletedNext (some ⟨i, true⟩) l = l) := by
  constructor
  · show (l.filter (fun msg => msg.id != i)).filter (fun msg => msg.id != i) =
      l.filter (fun msg => msg.id != i)
    apply filter_ne_id_eq_self
    intro hmem
    obtain ⟨msg, hmsg, hid⟩ := List.mem_map.mp hmem
    have hne := (List.mem_filter.mp hmsg).2
    rw [bne_iff_ne] at hne
    exact hne hid
  · intro h
    show l.filter (fun msg => msg.id != i) = l
    exact filter_ne_id_eq_self i l h

/-- Witness for C8: deleting id "9", absent from a one-element collection,
twice or once yields the same collection, namely the original one. -/
theorem messageDeleted_idempotent_witness :
    messageDeletedNext (some ⟨"9", true⟩)
        (messageDeletedNext (some ⟨"9", true⟩) [⟨"1", "A", "hi", "t1"⟩]) =
      messageDeletedNext (some ⟨"9", true⟩) [⟨"1", "A", "hi", "t1"⟩] ∧
    messageDeletedNext (some ⟨"9", true⟩) [⟨"1", "A", "hi", "t1"⟩] =
      [⟨"1", "A", "hi", "t1"⟩] :=
  ⟨(messageDeleted_idempotent [⟨"1", "A", "hi", "t1"⟩] "9").1,
   (messageDeleted_idempotent [⟨"1", "A", "hi", "t1"⟩] "9").2 (by decide)⟩

/-- C6: when the pending text is empty or whitespace-only, `sendMessage`
performs no network call and makes no state change, and likewise
`saveEdit` when the editing text is empty or whitespace-only. -/
theorem blank_text_no_request_no_change (s : ChatState) (id : String)
    (resp : Option (List Message))
    (htext : ∀ c ∈ s.text.data, isJsWhitespace c = true)
    (hedit : ∀ c ∈ s.editingText.data, isJsWhitespace c = true) :
    sendMessage s resp = (s, []) ∧ saveEdit id s resp = (s, []) := by
  have h1 : jsTrim s.text = "" := jsTrim_eq_empty _ htext
  have h2 : jsTrim s.editingText = "" := jsTrim_eq_empty _ hedit
  constructor
  · simp [sendMessage, h1]
  · simp [saveEdit, h2]

/-- Witness for C6: with pending text `" "` and editing text an
ideographic space (U+3000), neither handler issues a request or touches
the state, whatever the server would have answered. -/
theorem blank_text_no_request_no_change_witness :
    sendMessage ⟨[], "A", " ", none, "　"⟩ (some []) =
      (⟨[], "A", " ", none, "　"⟩, []) ∧
    saveEdit "1" ⟨[], "A", " ", none, "　"⟩ (some []) =
      (⟨[], "A", " ", none, "　"⟩, []) :=
  blank_text_no_request_no_change ⟨[], "A", " ", none, "　"⟩ "1" (some [])
    (by decide) (by decide)

/-- C9 (implicit): the `messagePosted` handler appends with no
de-duplication, so a collection can hold several entries with one id
(the id count grows past 1); on such a collection the `messageUpdated`
handler replaces every matching entry and the `messageDeleted` handler
with `success=true` removes every matching entry. -/
theorem duplicate_ids_update_delete_all (m : Message) (l : List Message)
    (i : String) :
    messagePostedNext (some m) l = l ++ [m] ∧
    (m.id ∈ l.map Message.id →
      2 ≤ ((messagePostedNext (some m) l).map Message.id).count m.id) ∧
    (∀ j : Nat, ∀ msg : Message, l[j]? = some msg → msg.id = m.id →
      (messageUpdatedNext (some m) l)[j]? = some m) ∧
    (∀ msg : Message, msg ∈ messageDeletedNext (some ⟨i, true⟩) l ↔
      msg ∈ l ∧ msg.id ≠ i) := by
  refine ⟨rfl, ?_, ?_, ?_⟩
  · intro h
    have h1 : 0 < (l.map Message.id).count m.id := List.count_pos_iff.mpr h
    show 2 ≤ ((l ++ [m]).map Message.id).count m.id
    rw [List.map_append, List.count_append]
    simp only [List.map_cons, List.map_nil, List.count_singleton,
      beq_self_eq_true, if_true]
    omega
  · intro j msg hj hid
    show (l.map _)[j]? = some m
    rw [List.getElem?_map, hj]
    simp [hid]
  · intro msg
    show msg ∈ l.filter (fun msg => msg.id != i) ↔ msg ∈ l ∧ msg.id ≠ i
    rw [List.mem_filter, bne_iff_ne]

/-- Witness for C9: appending a second message with id "1" makes the id
occur twice; the update handler rewrites the duplicate-id entry at index 0
and the delete handler drops every id-"1" entry. -/
theorem duplicate_ids_update_delete_all_witness :
    messagePostedNext (some ⟨"1", "B", "yo", "t2"⟩) [⟨"1", "A", "hi", "t1"⟩] =
      [⟨"1", "A", "hi", "t1"⟩] ++ [⟨"1", "B", "yo", "t2"⟩] ∧
    2 ≤ ((messagePostedNext (some ⟨"1", "B", "yo", "t2"⟩)
        [⟨"1", "A", "hi", "t1"⟩]).map Message.id).count "1" ∧
    (messageUpdatedNext (some ⟨"1", "B", "yo", "t2"⟩)
        [⟨"1", "A", "hi", "t1"⟩])[0]? = some ⟨"1", "B", "yo", "t2"⟩ ∧
    (⟨"1", "A", "hi", "t1"⟩ ∈
        messageDeletedNext (some ⟨"1", true⟩) [⟨"1", "A", "hi", "t1"⟩] ↔
      ⟨"1", "A", "hi", "t1"⟩ ∈ [(⟨"1", "A", "hi", "t1"⟩ : Message)] ∧
        "1" ≠ "1") := by
  have h := duplicate_ids_update_delete_all ⟨"1", "B", "yo", "t2"⟩
      [⟨"1", "A", "hi", "t1"⟩] "1"
  exact ⟨h.1, h.2.1 (by decide), h.2.2.1 0 ⟨"1", "A", "hi", "t1"⟩ rfl rfl,
    h.2.2.2 ⟨"1", "A", "hi", "t1"⟩⟩

/-- C10 (implicit): the `messageUpdated` handler replaces the whole stored
record of a matching entry with the event payload: the resulting entry
agrees with the event message in every field (id, author handle, body
text, creation timestamp), not just the body text. -/
theorem messageUpdated_replaces_whole_record (l : List Message) (m : Message) :
    ∀ j : Nat, ∀ msg : Message, l[j]? = some msg → msg.id = m.id →
      ∃ r : Message, (messageUpdatedNext (some m) l)[j]? = some r ∧
        r.id = m.id ∧ r.user = m.user ∧ r.text = m.text ∧
        r.createdAt = m.createdAt := by
  intro j msg hj hid
  refine ⟨m, ?_, rfl, rfl, rfl, rfl⟩
  show (l.map _)[j]? = some m
  rw [List.getElem?_map, hj]
  simp [hid]

/-- Witness for C10: an update event with a different author and timestamp
overwrites those stored fields too, not only the text. -/
theorem messageUpdated_replaces_whole_record_witness :
    ∃ r : Message,
      (messageUpdatedNext (some ⟨"1", "B", "yo", "t2"⟩)
          [⟨"1", "A", "hi", "t1"⟩])[0]? = some r ∧
      r.id = "1" ∧ r.user = "B" ∧ r.text = "yo" ∧ r.createdAt = "t2" :=
  messageUpdated_replaces_whole_record [⟨"1", "A", "hi", "t1"⟩]
    ⟨"1", "B", "yo", "t2"⟩ 0 ⟨"1", "A", "hi", "t1"⟩ rfl rfl

end Chat
